import Mathlib

/-!
Verification of the audio2text standalone transcription pipeline
(`transcribe_standalone.py`), shallowly embedded in Lean 4.

Modelling conventions:
* Python floats that carry time values are modelled as rationals (`ℚ`);
  Python `int(x)` is truncation toward zero, `x % y` and `x // y` on
  non-negative operands are floor-based remainder and floor division.
* Fallible external collaborators (`sf.read`, `librosa.load`, `sf.write`,
  the ffmpeg subprocess, the two transcription engines, the final
  format-and-write step) are modelled as `Except String _` values carried
  in an environment record: `.ok` is normal return, `.error m` is a raised
  exception whose `str()` is `m`.
* The file system is abstracted to the one fact the claims need: whether a
  temporary wav produced by preprocessing still exists; `os.unlink` on it
  is modelled as succeeding.  ffmpeg invoked with `-ar 16000 -ac 1` is
  modelled as producing mono 16 kHz audio, per its command line.
-/

/-- Audio content as far as the pipeline inspects it: channel count and
sample rate, as returned by `sf.read` (shape of the data array and the
sample-rate return value). -/
structure Audio where
  channels : ℕ
  rate : ℕ
deriving DecidableEq, Repr

/-- Whether `preprocess_audio` returned the original input file or a
temporary converted wav. -/
inductive PathSrc
  | original
  | temp
deriving DecidableEq, Repr

/-- The value returned by `preprocess_audio`: which path it returned and
the audio content behind that path (the `audio_data, sample_rate` pair). -/
structure PreOut where
  src : PathSrc
  audio : Audio
deriving DecidableEq, Repr

/-- Environment of one `preprocess_audio` call: the input file and the
behaviour of the external decoders during this call. -/
structure PreEnv where
  /-- `str(audio_path)`. -/
  pathStr : String
  /-- `audio_path.exists()`. -/
  fileExists : Bool
  /-- `audio_path.suffix.lower()`. -/
  suffix : String
  /-- `LIBROSA_AVAILABLE`. -/
  librosaAvailable : Bool
  /-- Outcome of `sf.read(str(audio_path))` on the original file. -/
  sfReadOrig : Except String Audio
  /-- Outcome of `librosa.load(str(audio_path), sr=16000, mono=True)`. -/
  librosaLoad : Except String Unit
  /-- Outcome of `sf.write(temp_wav.name, audio_data, 16000)`. -/
  sfWriteTemp : Except String Unit
  /-- Outcome of the ffmpeg subprocess: `.error stderr` models a nonzero
  return code with that stderr text. -/
  ffmpegRun : Except String Unit

/-- Result of `preprocess_audio` together with the two observations the
claims are about: whether a temporary file survives the call and whether
the ffmpeg transcoder was attempted. -/
structure PreResult where
  outcome : Except String PreOut
  tempAlive : Bool
  ffmpegAttempted : Bool
deriving Repr

/-- The conversion block of `preprocess_audio` (lines 209-248): librosa
when available, otherwise ffmpeg; the surrounding `except` handler unlinks
the temporary file and re-raises `RuntimeError(f"Audio preprocessing
failed: {e}")`. -/
def convertAudio (env : PreEnv) : PreResult :=
  if env.librosaAvailable then
    match env.librosaLoad with
    | .error e => ⟨.error ("Audio preprocessing failed: " ++ e), false, false⟩
    | .ok _ =>
      match env.sfWriteTemp with
      | .error e => ⟨.error ("Audio preprocessing failed: " ++ e), false, false⟩
      | .ok _ => ⟨.ok ⟨.temp, ⟨1, 16000⟩⟩, true, false⟩
  else
    match env.ffmpegRun with
    | .error e =>
      ⟨.error ("Audio preprocessing failed: FFmpeg conversion failed: " ++ e),
        false, true⟩
    | .ok _ => ⟨.ok ⟨.temp, ⟨1, 16000⟩⟩, true, true⟩

/-- `Audio2TextTranscriber.preprocess_audio` (lines 189-248).  Raises
`FileNotFoundError` when the input is missing; takes the fast path when the
suffix is `.wav`/`.flac`, librosa is importable, `sf.read` succeeds and the
sample rate is exactly 16000 (the channel count is not examined); otherwise
converts. -/
def preprocess_audio (env : PreEnv) : PreResult :=
  if !env.fileExists then
    ⟨.error ("Audio file not found: " ++ env.pathStr), false, false⟩
  else if (env.suffix == ".wav" || env.suffix == ".flac") && env.librosaAvailable then
    match env.sfReadOrig with
    | .ok a => if a.rate == 16000 then ⟨.ok ⟨.original, a⟩, false, false⟩ else convertAudio env
    | .error _ => convertAudio env
  else convertAudio env

/-- The fast-path guard of `preprocess_audio` as one predicate: the call
returns the original file unconverted exactly when this holds. -/
def fastPathTaken (env : PreEnv) : Bool :=
  env.fileExists && (env.suffix == ".wav" || env.suffix == ".flac")
    && env.librosaAvailable
    && (match env.sfReadOrig with
        | .ok a => a.rate == 16000
        | .error _ => false)

/-- A transcription result dict as returned by an engine, as far as the
orchestrator inspects it: its Python truth value (`if not result:` checks)
and its segments. -/
structure TResult where
  /-- Python truthiness of the returned object (`None`/empty dict are
  falsy; every real engine result is a non-empty dict, hence truthy). -/
  truthy : Bool
  segments : List (ℚ × ℚ × String)
deriving DecidableEq, Repr

/-- Values stored in the outcome dict built by `transcribe_file`. -/
inductive PyVal
  | b : Bool → PyVal
  | s : String → PyVal
  | r : TResult → PyVal
deriving DecidableEq, Repr

/-- Environment of one `transcribe_file` call: module availability flags,
the behaviour of each engine attempt during this call, and the downstream
steps. -/
structure TEnv where
  pre : PreEnv
  /-- `MLX_AVAILABLE`. -/
  mlxAvailable : Bool
  /-- `WHISPERX_AVAILABLE`. -/
  whisperxAvailable : Bool
  /-- Outcome of `self.transcribe_with_mlx(processed_audio_path)`. -/
  mlxAttempt : Except String TResult
  /-- Outcome of `self.transcribe_with_whisperx(...)`, including a failed
  lazy model load (which that method converts into a raise). -/
  whisperxAttempt : Except String TResult
  /-- The `include_speakers` argument. -/
  includeSpeakers : Bool
  /-- Abstracts `add_speaker_diarization`, which catches every exception
  internally and always returns a result (possibly the input unchanged);
  its merge logic is modelled concretely further below. -/
  speakerStep : TResult → TResult
  /-- Outcome of `format_output` plus the `open`/`write` of the transcript
  file: `.error m` models an exception with `str()` equal to `m`. -/
  writeOut : Except String Unit
  /-- The `output_format` argument. -/
  outputFormat : String
  /-- `audio_path.stem`. -/
  stem : String
  /-- `self.output_dir`, when constructed with one. -/
  outputDir : Option String
  /-- `str(audio_path.parent)`. -/
  parentDir : String

/-- Python truthiness of the `result` local variable (`None` or an engine
dict). -/
def pyTruthy : Option TResult → Bool
  | none => false
  | some r => r.truthy

/-- State of the engine-selection block (lines 396-412): the `result` and
`engine_used` locals, plus which engines were attempted. -/
structure EngineState where
  result : Option TResult
  engineUsed : Option String
  mlxAttempted : Bool
  whisperxAttempted : Bool
deriving Repr

/-- The engine-selection block of `transcribe_file`: MLX Whisper first when
available, then WhisperX when `not result and WHISPERX_AVAILABLE`; a raise
inside an attempt is logged and leaves `result` unchanged. -/
def enginePhase (env : TEnv) : EngineState :=
  let s1 : EngineState :=
    if env.mlxAvailable then
      match env.mlxAttempt with
      | .ok r => ⟨some r, some "MLX Whisper", true, false⟩
      | .error _ => ⟨none, none, true, false⟩
    else ⟨none, none, false, false⟩
  if !(pyTruthy s1.result) && env.whisperxAvailable then
    match env.whisperxAttempt with
    | .ok r => ⟨some r, some "WhisperX", s1.mlxAttempted, true⟩
    | .error _ => ⟨s1.result, s1.engineUsed, s1.mlxAttempted, true⟩
  else s1

/-- The output path computed at lines 425-431: `output_dir` when given,
else next to the input, with stem-derived file name. -/
def outPathOf (env : TEnv) : String :=
  (match env.outputDir with
   | some d => d
   | none => env.parentDir) ++ "/" ++ env.stem ++ "_transcript." ++ env.outputFormat

/-- What one `transcribe_file` call produces: the returned outcome dict
(as its ordered key/value pairs) and the observations the claims are
about. -/
structure TOut where
  dict : List (String × PyVal)
  /-- Whether a temporary wav created by preprocessing survives the call
  (after the `finally` block). -/
  tempAlive : Bool
  mlxAttempted : Bool
  whisperxAttempted : Bool

/-- `Audio2TextTranscriber.transcribe_file` (lines 385-463).  The whole
body is inside `try/except Exception/finally`: any raise becomes the
`{'success': False, 'error': str(e)}` dict, and the `finally` block unlinks
`processed_audio_path` when it is set and differs from the input path
(temporary wav names are fresh, hence distinct from the input path). -/
def transcribe_file (env : TEnv) : TOut :=
  match preprocess_audio env.pre with
  | ⟨.error e, ta, _⟩ =>
    ⟨[("success", .b false), ("error", .s e)], ta, false, false⟩
  | ⟨.ok pout, ta, _⟩ =>
    let cleaned : Bool :=
      match pout.src with
      | .temp => false
      | .original => ta
    let es := enginePhase env
    match es.result with
    | none =>
      ⟨[("success", .b false), ("error", .s "All transcription engines failed")],
        cleaned, es.mlxAttempted, es.whisperxAttempted⟩
    | some r =>
      if !r.truthy then
        ⟨[("success", .b false), ("error", .s "All transcription engines failed")],
          cleaned, es.mlxAttempted, es.whisperxAttempted⟩
      else
        let r2 := if env.includeSpeakers then env.speakerStep r else r
        match env.writeOut with
        | .error e =>
          ⟨[("success", .b false), ("error", .s e)],
            cleaned, es.mlxAttempted, es.whisperxAttempted⟩
        | .ok _ =>
          ⟨[("success", .b true), ("output_path", .s (outPathOf env)),
              ("engine", .s (es.engineUsed.getD "")), ("result", .r r2)],
            cleaned, es.mlxAttempted, es.whisperxAttempted⟩

/-- One diarization turn from `diarization.itertracks(yield_label=True)`.
`stop` is the turn's `end` field (`end` is a Lean keyword). -/
structure DiarTurn where
  start : ℚ
  stop : ℚ
  speaker : String
deriving DecidableEq, Repr

/-- One transcript segment dict, with the fields the merge reads and
writes.  `stop` is the segment's `end` key. -/
structure TranscriptSegment where
  start : ℚ
  stop : ℚ
  text : String
  speaker : Option String
deriving DecidableEq, Repr

/-- The per-turn test on line 320: `turn.start <= start_time <= turn.end or
turn.start <= end_time <= turn.end`. -/
def touchesB (t : DiarTurn) (s : TranscriptSegment) : Bool :=
  (decide (t.start ≤ s.start) && decide (s.start ≤ t.stop))
    || (decide (t.start ≤ s.stop) && decide (s.stop ≤ t.stop))

/-- The `speakers` list collected for a segment (lines 318-321). -/
def speakersFor (turns : List DiarTurn) (s : TranscriptSegment) : List String :=
  (turns.filter (fun t => touchesB t s)).map (fun t => t.speaker)

/-- `speakers.count a`. -/
def countOcc (xs : List String) (a : String) : ℕ :=
  (xs.filter (fun x => x == a)).length

/-- Python `max(iterable, key=key)`: the first element of the iterable, in
its iteration order, whose key no later element strictly exceeds. -/
def pyMaxBy (key : String → ℕ) : List String → Option String
  | [] => none
  | x :: xs => some (xs.foldl (fun b a => if key b < key a then a else b) x)

/-- The speaker assignment for one segment (lines 323-326).  `ord` is the
iteration order of the Python set `set(speakers)`: some duplicate-free
enumeration of the collected labels, chosen by the hash-based set
implementation, not by this code. -/
def assignSpeaker (ord : List String) (turns : List DiarTurn)
    (s : TranscriptSegment) : TranscriptSegment :=
  if (speakersFor turns s).isEmpty then { s with speaker := some "UNKNOWN" }
  else
    { s with
      speaker := some ((pyMaxBy (countOcc (speakersFor turns s)) ord).getD "") }

/-- The segment loop of `add_speaker_diarization` (lines 313-326), indexed
so that each segment's `set(speakers)` enumeration can differ. -/
def mergeGo (ordf : ℕ → List String) (turns : List DiarTurn) :
    ℕ → List TranscriptSegment → List TranscriptSegment
  | _, [] => []
  | i, s :: rest => assignSpeaker (ordf i) turns s :: mergeGo ordf turns (i + 1) rest

/-- The diarization merge of `Audio2TextTranscriber.add_speaker_diarization`
(lines 312-326): every segment gets a speaker, nothing else changes. -/
def add_speaker_diarization (ordf : ℕ → List String) (turns : List DiarTurn)
    (segs : List TranscriptSegment) : List TranscriptSegment :=
  mergeGo ordf turns 0 segs

/-- `ord` is a possible iteration order of the Python set of `labels`:
duplicate-free and containing exactly the labels. -/
def ValidEnum (ord labels : List String) : Prop :=
  ord.Nodup ∧ (∀ a ∈ ord, a ∈ labels) ∧ (∀ a ∈ labels, a ∈ ord)

instance (ord labels : List String) : Decidable (ValidEnum ord labels) := by
  unfold ValidEnum; infer_instance

/-- The timing-and-text signature of a segment: everything except the
speaker field. -/
def segSig (s : TranscriptSegment) : ℚ × ℚ × String := (s.start, s.stop, s.text)

/-- Left-zero-pad a digit string to width `w`, as Python's `{:0wd}` does
after any sign. -/
def zpad (w : ℕ) (s : String) : String :=
  if s.length < w then String.mk (List.replicate (w - s.length) '0') ++ s else s

/-- Python `f"{n:0wd}"` for an integer: zero padding counts the sign
character toward the width. -/
def pyFormatD (w : ℕ) (n : ℤ) : String :=
  if n < 0 then "-" ++ zpad (w - 1) (toString n.natAbs) else zpad w (toString n.natAbs)

/-- Python `int(x)` on a float: truncation toward zero. -/
def pyInt (q : ℚ) : ℤ := if 0 ≤ q then q.floor else q.ceil

/-- Python `x % y` on floats: remainder with the divisor's sign,
`x - y * floor(x / y)`. -/
def pyFMod (x y : ℚ) : ℚ := x - y * ((x / y).floor : ℤ)

/-- Python `x // y` on floats: `floor(x / y)` as a float. -/
def pyFloorDiv (x y : ℚ) : ℚ := (((x / y).floor : ℤ) : ℚ)

/-- `Audio2TextTranscriber.format_timestamp_srt` (lines 377-383), with the
time value as an exact rational. -/
def format_timestamp_srt (seconds : ℚ) : String :=
  let hours := pyInt (pyFloorDiv seconds 3600)
  let minutes := pyInt (pyFloorDiv (pyFMod seconds 3600) 60)
  let secs := pyInt (pyFMod seconds 60)
  let millisecs := pyInt (pyFMod seconds 1 * 1000)
  pyFormatD 2 hours ++ ":" ++ pyFormatD 2 minutes ++ ":" ++ pyFormatD 2 secs
    ++ "," ++ pyFormatD 3 millisecs

/-- Prefix test on character lists (for the substring check below). -/
def charsPre : List Char → List Char → Bool
  | [], _ => true
  | _ :: _, [] => false
  | a :: as, b :: bs => a == b && charsPre as bs

/-- Substring occurrence test on character lists. -/
def charsSub (pat : List Char) : List Char → Bool
  | [] => charsPre pat []
  | l@(_ :: rest) => charsPre pat l || charsSub pat rest

/-- Whether `pat` occurs as a contiguous substring of `s`. -/
def strHasSub (s pat : String) : Bool := charsSub pat.toList s.toList

/-- `Rat.floor` agrees with the mathematical floor. -/
theorem ratFloor_eq (q : ℚ) : q.floor = ⌊q⌋ := by
  rw [Rat.floor_def', Rat.floor_def]

theorem pyInt_of_nonneg {q : ℚ} (h : 0 ≤ q) : pyInt q = ⌊q⌋ := by
  rw [pyInt, if_pos h, ratFloor_eq]

theorem pyFloorDiv_eq (x y : ℚ) : pyFloorDiv x y = (⌊x / y⌋ : ℚ) := by
  rw [pyFloorDiv, ratFloor_eq]

theorem pyFMod_eq (x y : ℚ) : pyFMod x y = x - y * (⌊x / y⌋ : ℚ) := by
  rw [pyFMod, ratFloor_eq]

theorem floor_div_eval (x y : ℚ) (n : ℤ) (hy : 0 < y) (h1 : (n : ℚ) * y ≤ x)
    (h2 : x < ((n : ℚ) + 1) * y) : ⌊x / y⌋ = n := by
  rw [Int.floor_eq_iff]
  exact ⟨(le_div_iff₀ hy).mpr h1, (div_lt_iff₀ hy).mpr h2⟩

theorem pyFloorDiv_eval (x y : ℚ) (n : ℤ) (hy : 0 < y) (h1 : (n : ℚ) * y ≤ x)
    (h2 : x < ((n : ℚ) + 1) * y) : pyFloorDiv x y = (n : ℚ) := by
  rw [pyFloorDiv_eq, floor_div_eval x y n hy h1 h2]

theorem pyFMod_eval (x y : ℚ) (n : ℤ) (hy : 0 < y) (h1 : (n : ℚ) * y ≤ x)
    (h2 : x < ((n : ℚ) + 1) * y) : pyFMod x y = x - y * (n : ℚ) := by
  rw [pyFMod_eq, floor_div_eval x y n hy h1 h2]

theorem pyInt_eval (q : ℚ) (n : ℤ) (h0 : 0 ≤ q) (h1 : (n : ℚ) ≤ q)
    (h2 : q < (n : ℚ) + 1) : pyInt q = n := by
  rw [pyInt_of_nonneg h0]
  exact Int.floor_eq_iff.mpr ⟨h1, by exact_mod_cast h2⟩

/-- The key of the running maximum never decreases along the fold inside
`pyMaxBy`. -/
theorem pyFold_acc_le (key : String → ℕ) :
    ∀ (xs : List String) (b : String),
      key b ≤ key (xs.foldl (fun c a => if key c < key a then a else c) b) := by
  intro xs
  induction xs with
  | nil => intro b; simp
  | cons a as ih =>
    intro b
    simp only [List.foldl_cons]
    by_cases hk : key b < key a
    · simpa [hk] using le_trans (le_of_lt hk) (ih a)
    · simpa [hk] using ih b

/-- The fold inside `pyMaxBy` returns one of the candidates. -/
theorem pyFold_mem (key : String → ℕ) :
    ∀ (xs : List String) (b : String),
      xs.foldl (fun c a => if key c < key a then a else c) b ∈ b :: xs := by
  intro xs
  induction xs with
  | nil => intro b; simp
  | cons a as ih =>
    intro b
    simp only [List.foldl_cons]
    by_cases hk : key b < key a
    · have h := ih a
      simp only [hk, if_true, List.mem_cons] at h ⊢
      tauto
    · have h := ih b
      simp only [hk, if_false, List.mem_cons] at h ⊢
      tauto

/-- The fold inside `pyMaxBy` dominates every candidate's key. -/
theorem pyFold_le (key : String → ℕ) :
    ∀ (xs : List String) (b a : String), a ∈ b :: xs →
      key a ≤ key (xs.foldl (fun c a => if key c < key a then a else c) b) := by
  intro xs
  induction xs with
  | nil =>
    intro b a ha
    simp only [List.mem_singleton] at ha
    subst ha; simp
  | cons c cs ih =>
    intro b a ha
    simp only [List.foldl_cons]
    rcases List.mem_cons.mp ha with rfl | ha'
    · refine le_trans ?_ (pyFold_acc_le key cs _)
      by_cases hk : key a < key c
      · simpa [hk] using le_of_lt hk
      · simp [hk]
    · rcases List.mem_cons.mp ha' with rfl | ha''
      · refine le_trans ?_ (pyFold_acc_le key cs _)
        by_cases hk : key b < key a
        · simp [hk]
        · simpa [hk] using not_lt.mp hk
      · exact ih _ a (List.mem_cons_of_mem _ ha'')

/-- `pyMaxBy` on a non-empty list returns a member whose key is maximal. -/
theorem pyMaxBy_spec (key : String → ℕ) (l : List String) (hl : l ≠ []) :
    ∃ m, pyMaxBy key l = some m ∧ m ∈ l ∧ ∀ a ∈ l, key a ≤ key m := by
  cases l with
  | nil => exact absurd rfl hl
  | cons x xs =>
    exact ⟨_, rfl, pyFold_mem key xs x, fun a ha => pyFold_le key xs x a ha⟩

/-- When no turn matches a segment, the merge writes `UNKNOWN`. -/
theorem assignSpeaker_unknown (ord : List String) (turns : List DiarTurn)
    (s : TranscriptSegment) (h : speakersFor turns s = []) :
    (assignSpeaker ord turns s).speaker = some "UNKNOWN" := by
  simp [assignSpeaker, h]

/-- When at least one turn matches and `ord` is a genuine enumeration of
the collected label set, the merge writes a label of maximal count among
the collected labels. -/
theorem assignSpeaker_maximal (ord : List String) (turns : List DiarTurn)
    (s : TranscriptSegment) (hord : ValidEnum ord (speakersFor turns s))
    (hne : speakersFor turns s ≠ []) :
    ∃ l, (assignSpeaker ord turns s).speaker = some l ∧ l ∈ speakersFor turns s ∧
      ∀ a ∈ speakersFor turns s,
        countOcc (speakersFor turns s) a ≤ countOcc (speakersFor turns s) l := by
  obtain ⟨hnd, hsub, hsup⟩ := hord
  have hordne : ord ≠ [] := by
    obtain ⟨a, ha⟩ := List.exists_mem_of_ne_nil _ hne
    intro hcon
    rw [hcon] at hsup
    exact (List.not_mem_nil a) (hsup a ha)
  obtain ⟨m, hm, hmem, hle⟩ := pyMaxBy_spec (countOcc (speakersFor turns s)) ord hordne
  refine ⟨m, ?_, hsub m hmem, fun a ha => hle a (hsup a ha)⟩
  have hemp : (speakersFor turns s).isEmpty = false := by
    cases hsp : speakersFor turns s with
    | nil => exact absurd hsp hne
    | cons x xs => rfl
  simp [assignSpeaker, hemp, hm]

/-- Assigning a speaker never touches start, end or text. -/
theorem assignSpeaker_sig (ord : List String) (turns : List DiarTurn)
    (s : TranscriptSegment) : segSig (assignSpeaker ord turns s) = segSig s := by
  unfold assignSpeaker
  split <;> rfl

/-- Assigning a speaker always populates the speaker field. -/
theorem assignSpeaker_isSome (ord : List String) (turns : List DiarTurn)
    (s : TranscriptSegment) : (assignSpeaker ord turns s).speaker.isSome = true := by
  unfold assignSpeaker
  split <;> rfl

/-- The merge loop preserves every segment's signature, at any start
index. -/
theorem mergeGo_map (ordf : ℕ → List String) (turns : List DiarTurn) :
    ∀ (i : ℕ) (segs : List TranscriptSegment),
      (mergeGo ordf turns i segs).map segSig = segs.map segSig := by
  intro i segs
  induction segs generalizing i with
  | nil => rfl
  | cons s rest ih => simp [mergeGo, assignSpeaker_sig, ih]

/-- The merge loop populates every speaker field, at any start index. -/
theorem mergeGo_isSome (ordf : ℕ → List String) (turns : List DiarTurn) :
    ∀ (i : ℕ) (segs : List TranscriptSegment),
      (mergeGo ordf turns i segs).all (fun s => s.speaker.isSome) = true := by
  intro i segs
  induction segs generalizing i with
  | nil => rfl
  | cons s rest ih => simp [mergeGo, assignSpeaker_isSome, ih, List.all_cons]

/-- The conversion block either produces a live temporary holding mono
16 kHz audio, or fails with nothing left behind; it never returns the
original path. -/
theorem convertAudio_shape (env : PreEnv) :
    ((convertAudio env).tempAlive = true →
      (convertAudio env).outcome = .ok ⟨PathSrc.temp, ⟨1, 16000⟩⟩)
    ∧ (∀ a, (convertAudio env).outcome = .ok ⟨PathSrc.original, a⟩ → False)
    ∧ (∀ e, (convertAudio env).outcome = .error e → (convertAudio env).tempAlive = false) := by
  unfold convertAudio
  repeat' split
  all_goals simp

/-- After `preprocess_audio` returns, a surviving temporary implies a
successful conversion to mono 16 kHz; the fast path and every failure
leave no temporary. -/
theorem preprocess_shape (env : PreEnv) :
    ((preprocess_audio env).tempAlive = true →
      (preprocess_audio env).outcome = .ok ⟨PathSrc.temp, ⟨1, 16000⟩⟩)
    ∧ (∀ a, (preprocess_audio env).outcome = .ok ⟨PathSrc.original, a⟩ →
        (preprocess_audio env).tempAlive = false)
    ∧ (∀ e, (preprocess_audio env).outcome = .error e →
        (preprocess_audio env).tempAlive = false) := by
  obtain ⟨h1, h3, h2⟩ := convertAudio_shape env
  unfold preprocess_audio
  repeat' split
  all_goals first
    | exact ⟨h1, fun a ha => (h3 a ha).elim, h2⟩
    | exact ⟨(fun h => nomatch h), (fun a ha => rfl), (fun e he => rfl)⟩

/-- When every available engine raises (or no engine is available), the
engine-selection block ends with `result` still `None`. -/
theorem enginePhase_none (env : TEnv)
    (hmlx : env.mlxAvailable = true → ∃ e, env.mlxAttempt = .error e)
    (hwx : env.whisperxAvailable = true → ∃ e, env.whisperxAttempt = .error e) :
    (enginePhase env).result = none := by
  unfold enginePhase
  cases hm : env.mlxAvailable with
  | false =>
    cases hw : env.whisperxAvailable with
    | false => simp [pyTruthy]
    | true =>
      obtain ⟨e, he⟩ := hwx hw
      simp [pyTruthy, he]
  | true =>
    obtain ⟨e, he⟩ := hmlx hm
    cases hw : env.whisperxAvailable with
    | false => simp [pyTruthy, he, hw]
    | true =>
      obtain ⟨e2, he2⟩ := hwx hw
      simp [pyTruthy, he, he2]

/-- When MLX raises and WhisperX returns, the engine-selection block ends
with WhisperX's result and name, both engines having been attempted. -/
theorem enginePhase_fallback (env : TEnv) (em : String) (r : TResult)
    (hm : env.mlxAvailable = true) (hma : env.mlxAttempt = .error em)
    (hw : env.whisperxAvailable = true) (hwa : env.whisperxAttempt = .ok r) :
    enginePhase env = ⟨some r, some "WhisperX", true, true⟩ := by
  unfold enginePhase
  simp [hm, hma, hw, hwa, pyTruthy]

/-- When MLX returns a truthy result, WhisperX is never attempted. -/
theorem enginePhase_first_wins (env : TEnv) (r : TResult)
    (hm : env.mlxAvailable = true) (hma : env.mlxAttempt = .ok r)
    (ht : r.truthy = true) :
    enginePhase env = ⟨some r, some "MLX Whisper", true, false⟩ := by
  unfold enginePhase
  simp [hm, hma, pyTruthy, ht]

/-- C7: on every exit path of a `transcribe_file` call — success, engine
failure, diarization step, formatting or write failure, and preprocessing
failure alike — no temporary audio file created by preprocessing survives
the call. -/
theorem c7_temp_cleanup (env : TEnv) : (transcribe_file env).tempAlive = false := by
  obtain ⟨h1, h2, h3⟩ := preprocess_shape env.pre
  rcases hp : preprocess_audio env.pre with ⟨out, ta, fa⟩
  rw [hp] at h2 h3
  unfold transcribe_file
  rw [hp]
  cases out with
  | error e => simpa using h3 e rfl
  | ok pout =>
    rcases pout with ⟨src, audio⟩
    cases src with
    | temp =>
      simp only []
      repeat' split
      all_goals rfl
    | original =>
      have hta : ta = false := by simpa using h2 audio rfl
      subst hta
      simp only []
      repeat' split
      all_goals rfl

/-- C10: the outcome dict of `transcribe_file` has exactly the keys
`success`, `output_path`, `engine`, `result` (with `success = True`) on
the success path, and exactly `success`, `error` (with `success = False`)
on every failure path. -/
theorem c10_outcome_shape (env : TEnv) :
    ((transcribe_file env).dict.map Prod.fst = ["success", "output_path", "engine", "result"]
      ∧ (transcribe_file env).dict.lookup "success" = some (.b true))
    ∨ ((transcribe_file env).dict.map Prod.fst = ["success", "error"]
      ∧ (transcribe_file env).dict.lookup "success" = some (.b false)) := by
  unfold transcribe_file
  rcases preprocess_audio env.pre with ⟨out, ta, fa⟩
  cases out with
  | error e => right; exact ⟨rfl, rfl⟩
  | ok pout =>
    simp only []
    repeat' split
    all_goals first
      | (left; exact ⟨rfl, rfl⟩)
      | (right; exact ⟨rfl, rfl⟩)

/-- C1 counterexample: with both engines configured and failing with
distinct reasons ("mlx boom", "whisperx boom"), the outcome is a failure,
but its error detail is the fixed string `All transcription engines
failed`: it does not aggregate (or even mention) either engine's failure
reason, refuting the aggregation part of the claim. -/
theorem c1_counterexample :
    (transcribe_file
        ⟨⟨"a.wav", true, ".wav", true, .ok ⟨1, 16000⟩, .ok (), .ok (), .ok ()⟩,
          true, true, .error "mlx boom", .error "whisperx boom",
          false, id, .ok (), "txt", "a", none, "."⟩).dict
      = [("success", .b false), ("error", .s "All transcription engines failed")]
    ∧ strHasSub "All transcription engines failed" "mlx boom" = false
    ∧ strHasSub "All transcription engines failed" "whisperx boom" = false :=
  ⟨rfl, by decide, by decide⟩

/-- C1 as amended: whenever preprocessing succeeds and every available
engine raises (zero available engines included), `transcribe_file` returns
— it never raises, being a total function into outcome dicts — the failure
outcome `{'success': False, 'error': 'All transcription engines failed'}`;
the individual failure reasons are only logged, not aggregated. -/
theorem c1_all_engines_failed (env : TEnv) (out : PreOut)
    (hpre : (preprocess_audio env.pre).outcome = .ok out)
    (hmlx : env.mlxAvailable = true → ∃ e, env.mlxAttempt = .error e)
    (hwx : env.whisperxAvailable = true → ∃ e, env.whisperxAttempt = .error e) :
    (transcribe_file env).dict
      = [("success", .b false), ("error", .s "All transcription engines failed")] := by
  have hes := enginePhase_none env hmlx hwx
  rcases hp : preprocess_audio env.pre with ⟨o, ta, fa⟩
  rw [hp] at hpre
  simp only at hpre
  subst hpre
  unfold transcribe_file
  rw [hp]
  simp only []
  rw [show (enginePhase env) = ⟨none, (enginePhase env).engineUsed,
        (enginePhase env).mlxAttempted, (enginePhase env).whisperxAttempted⟩ from by
      rcases hq : enginePhase env with ⟨res, eu, ma, wa⟩
      rw [hq] at hes
      simp only at hes
      subst hes
      rfl]

/-- C1 witness: the amended theorem applied at a concrete environment in
which both engines are available and raise. -/
theorem c1_witness :
    (transcribe_file
        ⟨⟨"b.flac", true, ".flac", true, .ok ⟨1, 16000⟩, .ok (), .ok (), .ok ()⟩,
          true, true, .error "mlx down", .error "whisperx down",
          false, id, .ok (), "srt", "b", none, "."⟩).dict
      = [("success", .b false), ("error", .s "All transcription engines failed")] :=
  c1_all_engines_failed _ ⟨.original, ⟨1, 16000⟩⟩ rfl
    (fun _ => ⟨"mlx down", rfl⟩) (fun _ => ⟨"whisperx down", rfl⟩)

/-- C6: whenever the primary engine (MLX Whisper) is available but raises
and the fallback engine (WhisperX) is available, returns a truthy result
and the write succeeds, the outcome has `success = True` and `engine =
"WhisperX"`; and whenever an engine succeeds, no later engine is attempted
(a truthy MLX result means WhisperX is never tried). -/
theorem c6_engine_fallback :
    (∀ (env : TEnv) (out : PreOut) (em : String) (r : TResult),
      (preprocess_audio env.pre).outcome = .ok out →
      env.mlxAvailable = true → env.mlxAttempt = .error em →
      env.whisperxAvailable = true → env.whisperxAttempt = .ok r →
      r.truthy = true → env.writeOut = .ok () →
      (transcribe_file env).dict.lookup "success" = some (.b true)
        ∧ (transcribe_file env).dict.lookup "engine" = some (.s "WhisperX"))
    ∧ (∀ (env : TEnv) (r : TResult),
      env.mlxAvailable = true → env.mlxAttempt = .ok r → r.truthy = true →
      (transcribe_file env).whisperxAttempted = false) := by
  constructor
  · intro env out em r hpre hm hma hw hwa ht hwr
    have hes := enginePhase_fallback env em r hm hma hw hwa
    unfold transcribe_file
    rcases hp : preprocess_audio env.pre with ⟨o, ta, fa⟩
    rw [hp] at hpre
    simp only at hpre
    subst hpre
    simp only [hes]
    rw [hwr]
    simp [ht, List.lookup]
  · intro env r hm hma ht
    have hes := enginePhase_first_wins env r hm hma ht
    unfold transcribe_file
    rcases hp : preprocess_audio env.pre with ⟨out, ta, fa⟩
    cases out with
    | error e => rfl
    | ok pout =>
      simp only [hes]
      repeat' split
      all_goals rfl

/-- C6 witness: the fallback theorem applied at a concrete call in which
MLX raises and WhisperX returns a truthy result. -/
theorem c6_witness :
    (transcribe_file
        ⟨⟨"a.wav", true, ".wav", true, .ok ⟨1, 16000⟩, .ok (), .ok (), .ok ()⟩,
          true, true, .error "mlx boom", .ok ⟨true, []⟩,
          false, id, .ok (), "txt", "a", none, "."⟩).dict.lookup "success"
      = some (.b true)
    ∧ (transcribe_file
        ⟨⟨"a.wav", true, ".wav", true, .ok ⟨1, 16000⟩, .ok (), .ok (), .ok ()⟩,
          true, true, .error "mlx boom", .ok ⟨true, []⟩,
          false, id, .ok (), "txt", "a", none, "."⟩).dict.lookup "engine"
      = some (.s "WhisperX") :=
  c6_engine_fallback.1 _ ⟨.original, ⟨1, 16000⟩⟩ "mlx boom" ⟨true, []⟩
    rfl rfl rfl rfl rfl rfl rfl

/-- C5 counterexample: librosa is available, its conversion raises
`librosa boom`, and ffmpeg would have succeeded (`ffmpegRun = .ok ()`) —
yet `preprocess_audio` raises at once with only librosa's diagnostic and
ffmpeg is never attempted (third component `false`), refuting the claimed
librosa-to-ffmpeg failure fallback and the combined diagnostic. -/
theorem c5_counterexample :
    preprocess_audio
        ⟨"a.mp3", true, ".mp3", true, .ok ⟨2, 44100⟩, .error "librosa boom",
          .ok (), .ok ()⟩
      = ⟨.error "Audio preprocessing failed: librosa boom", false, false⟩
    ∧ strHasSub "Audio preprocessing failed: librosa boom" "FFmpeg" = false :=
  ⟨rfl, by decide⟩

/-- C5 as amended: librosa and ffmpeg are alternatives selected by
availability, not a failure-triggered fallback chain.  When librosa is
importable, ffmpeg is never attempted and a librosa failure raises
`Audio preprocessing failed: <librosa reason>` alone; ffmpeg runs only
when librosa is unavailable, and its failure raises `Audio preprocessing
failed: FFmpeg conversion failed: <stderr>`. -/
theorem c5_conversion_selection :
    (∀ env : PreEnv, env.librosaAvailable = true →
        (preprocess_audio env).ffmpegAttempted = false)
    ∧ (∀ (env : PreEnv) (e : String), env.fileExists = true →
        fastPathTaken env = false → env.librosaAvailable = true →
        env.librosaLoad = .error e →
        preprocess_audio env
          = ⟨.error ("Audio preprocessing failed: " ++ e), false, false⟩)
    ∧ (∀ (env : PreEnv) (e : String), env.fileExists = true →
        env.librosaAvailable = false → env.ffmpegRun = .error e →
        preprocess_audio env
          = ⟨.error ("Audio preprocessing failed: FFmpeg conversion failed: " ++ e),
              false, true⟩) := by
  refine ⟨?_, ?_, ?_⟩
  · intro env hla
    unfold preprocess_audio convertAudio
    repeat' split
    all_goals simp_all
  · intro env e hfe hfp hla hll
    unfold fastPathTaken at hfp
    unfold preprocess_audio convertAudio
    repeat' split
    all_goals simp_all
  · intro env e hfe hla hfr
    unfold preprocess_audio convertAudio
    repeat' split
    all_goals simp_all

/-- C5 witness: the amended theorem applied at a concrete environment
where librosa is available and fails. -/
theorem c5_witness :
    preprocess_audio
        ⟨"a.mp3", true, ".mp3", true, .ok ⟨2, 44100⟩, .error "lib down",
          .ok (), .ok ()⟩
      = ⟨.error ("Audio preprocessing failed: " ++ "lib down"), false, false⟩ :=
  c5_conversion_selection.2.1 _ "lib down" rfl rfl rfl rfl

/-- C2 counterexample: a 16 kHz *stereo* wav takes the fast path — the
guard checks only the sample rate — and is returned unchanged with two
channels, refuting "the audio it returns is always mono". -/
theorem c2_counterexample :
    (preprocess_audio
        ⟨"a.wav", true, ".wav", true, .ok ⟨2, 16000⟩, .ok (), .ok (), .ok ()⟩).outcome
      = .ok ⟨.original, ⟨2, 16000⟩⟩
    ∧ (2 : ℕ) ≠ 1 :=
  ⟨rfl, by decide⟩

/-- C2 as amended: whatever `preprocess_audio` converts comes out mono at
16000 Hz, but the fast path guarantees only the sample rate: an original
file is returned unconverted whenever `sf.read` reports 16000 Hz,
regardless of its channel count. -/
theorem c2_normalized_audio (env : PreEnv) (out : PreOut)
    (h : (preprocess_audio env).outcome = .ok out) :
    (out.src = PathSrc.temp → out.audio = ⟨1, 16000⟩)
    ∧ (out.src = PathSrc.original → out.audio.rate = 16000) := by
  unfold preprocess_audio convertAudio at h
  repeat' split at h
  all_goals try simp_all
  all_goals subst h
  all_goals refine ⟨fun hsrc => ?_, fun hsrc => ?_⟩
  all_goals simp_all

/-- C2 witness: the amended theorem applied at a concrete conversion. -/
theorem c2_witness :
    (preprocess_audio
        ⟨"x.mp3", true, ".mp3", true, .ok ⟨2, 44100⟩, .ok (), .ok (), .ok ()⟩).outcome
      = .ok ⟨PathSrc.temp, ⟨1, 16000⟩⟩
    ∧ ((⟨PathSrc.temp, ⟨1, 16000⟩⟩ : PreOut).src = PathSrc.temp →
        (⟨PathSrc.temp, ⟨1, 16000⟩⟩ : PreOut).audio = ⟨1, 16000⟩) :=
  ⟨rfl,
    (c2_normalized_audio
      ⟨"x.mp3", true, ".mp3", true, .ok ⟨2, 44100⟩, .ok (), .ok (), .ok ()⟩
      ⟨PathSrc.temp, ⟨1, 16000⟩⟩ rfl).1⟩

/-- C3: in the diarization merge the turns collected for a segment are
exactly those passing the boundary-touch test (either segment endpoint
inside the turn); with no match the speaker becomes `UNKNOWN`; with
matches the speaker is a most-frequently collected label (for any
enumeration the Python set could produce); and a segment whose only
matching turn fully contains it gets that turn's label. -/
theorem c3_boundary_merge (ord : List String) (turns : List DiarTurn)
    (s : TranscriptSegment) (hord : ValidEnum ord (speakersFor turns s)) :
    (∀ t : DiarTurn, t ∈ turns.filter (fun t => touchesB t s) ↔
        t ∈ turns ∧ ((t.start ≤ s.start ∧ s.start ≤ t.stop)
          ∨ (t.start ≤ s.stop ∧ s.stop ≤ t.stop)))
    ∧ ((∀ t ∈ turns, touchesB t s = false) →
        (assignSpeaker ord turns s).speaker = some "UNKNOWN")
    ∧ ((∃ t ∈ turns, touchesB t s = true) →
        ∃ l, (assignSpeaker ord turns s).speaker = some l
          ∧ l ∈ speakersFor turns s
          ∧ ∀ a ∈ speakersFor turns s,
              countOcc (speakersFor turns s) a ≤ countOcc (speakersFor turns s) l)
    ∧ (∀ t : DiarTurn, turns.filter (fun t => touchesB t s) = [t] →
        t.start ≤ s.start → s.stop ≤ t.stop →
        (assignSpeaker ord turns s).speaker = some t.speaker) := by
  refine ⟨?_, ?_, ?_, ?_⟩
  · intro t
    simp [List.mem_filter, touchesB]
  · intro hnone
    apply assignSpeaker_unknown
    have hfil : turns.filter (fun t => touchesB t s) = [] := by
      rw [List.filter_eq_nil_iff]
      intro t ht
      simp [hnone t ht]
    simp [speakersFor, hfil]
  · rintro ⟨t, ht, htt⟩
    apply assignSpeaker_maximal ord turns s hord
    have hmem : t.speaker ∈ speakersFor turns s := by
      rw [speakersFor]
      exact List.mem_map_of_mem _ (List.mem_filter.mpr ⟨ht, htt⟩)
    intro hcon
    rw [hcon] at hmem
    exact (List.not_mem_nil _) hmem
  · intro t hfil h1 h2
    have hsp : speakersFor turns s = [t.speaker] := by
      rw [speakersFor, hfil]
      rfl
    obtain ⟨l, hl, hmem, _⟩ :=
      assignSpeaker_maximal ord turns s hord (by rw [hsp]; simp)
    rw [hsp] at hmem
    simp only [List.mem_singleton] at hmem
    rw [hl, hmem]

/-- C3 witness: the theorem applied to a segment fully inside a single
turn, with the set enumeration the singleton label set admits. -/
theorem c3_witness :
    (assignSpeaker ["A"] [⟨0, 10, "A"⟩] ⟨1, 2, "hi", none⟩).speaker = some "A" := by
  have h := c3_boundary_merge ["A"] [⟨0, 10, "A"⟩] ⟨1, 2, "hi", none⟩ (by decide)
  exact h.2.2.2 ⟨0, 10, "A"⟩ (by decide) (by decide) (by decide)

/-- C4 counterexample: segment `[0,10]` touches turn `[0,1]` of speaker A
(first encountered) and turn `[9,10]` of speaker B, one count each — a
tie.  The enumeration `["B", "A"]` is a legitimate iteration order of the
Python set `{"A", "B"}`, and under it `max(set(speakers),
key=speakers.count)` yields `B`, not the first-encountered label `A`: the
tie-break is the hash-dependent set order, not first-encountered order. -/
theorem c4_counterexample :
    ValidEnum ["B", "A"] (speakersFor [⟨0, 1, "A"⟩, ⟨9, 10, "B"⟩] ⟨0, 10, "hi", none⟩)
    ∧ speakersFor [⟨0, 1, "A"⟩, ⟨9, 10, "B"⟩] ⟨0, 10, "hi", none⟩ = ["A", "B"]
    ∧ countOcc ["A", "B"] "A" = countOcc ["A", "B"] "B"
    ∧ (assignSpeaker ["B", "A"] [⟨0, 1, "A"⟩, ⟨9, 10, "B"⟩] ⟨0, 10, "hi", none⟩).speaker
        = some "B"
    ∧ ¬ (∀ ord : List String,
          ValidEnum ord (speakersFor [⟨0, 1, "A"⟩, ⟨9, 10, "B"⟩] ⟨0, 10, "hi", none⟩) →
          (assignSpeaker ord [⟨0, 1, "A"⟩, ⟨9, 10, "B"⟩] ⟨0, 10, "hi", none⟩).speaker
            = some "A") := by
  refine ⟨by decide, by decide, by decide, by decide, fun hall => ?_⟩
  have h := hall ["B", "A"] (by decide)
  exact absurd h (by decide)

/-- C4 as amended: on a tie the assigned speaker is decided by the
iteration order of the Python set of collected labels — implementation
defined, not necessarily the first-encountered label — and is always one
of the labels of maximal count; different admissible set orders can give
different winners. -/
theorem c4_tiebreak :
    (∀ (ord : List String) (turns : List DiarTurn) (s : TranscriptSegment),
      ValidEnum ord (speakersFor turns s) → speakersFor turns s ≠ [] →
      ∃ l, (assignSpeaker ord turns s).speaker = some l
        ∧ l ∈ speakersFor turns s
        ∧ ∀ a ∈ speakersFor turns s,
            countOcc (speakersFor turns s) a ≤ countOcc (speakersFor turns s) l)
    ∧ (assignSpeaker ["A", "B"] [⟨0, 1, "A"⟩, ⟨9, 10, "B"⟩] ⟨0, 10, "hi", none⟩).speaker
        = some "A"
    ∧ (assignSpeaker ["B", "A"] [⟨0, 1, "A"⟩, ⟨9, 10, "B"⟩] ⟨0, 10, "hi", none⟩).speaker
        = some "B" :=
  ⟨fun ord turns s hord hne => assignSpeaker_maximal ord turns s hord hne,
    by decide, by decide⟩

/-- C4 witness: the amended theorem applied at the tied concrete input. -/
theorem c4_witness :
    ∃ l, (assignSpeaker ["B", "A"] [⟨0, 1, "A"⟩, ⟨9, 10, "B"⟩] ⟨0, 10, "hi", none⟩).speaker
        = some l
      ∧ l ∈ speakersFor [⟨0, 1, "A"⟩, ⟨9, 10, "B"⟩] ⟨0, 10, "hi", none⟩
      ∧ ∀ a ∈ speakersFor [⟨0, 1, "A"⟩, ⟨9, 10, "B"⟩] ⟨0, 10, "hi", none⟩,
          countOcc (speakersFor [⟨0, 1, "A"⟩, ⟨9, 10, "B"⟩] ⟨0, 10, "hi", none⟩) a
            ≤ countOcc (speakersFor [⟨0, 1, "A"⟩, ⟨9, 10, "B"⟩] ⟨0, 10, "hi", none⟩) l :=
  c4_tiebreak.1 ["B", "A"] [⟨0, 1, "A"⟩, ⟨9, 10, "B"⟩] ⟨0, 10, "hi", none⟩
    (by decide) (by decide)

/-- C9: the diarization merge changes no field other than `speaker`: the
start/end/text signatures and the length are preserved, and every output
segment has its speaker populated. -/
theorem c9_merge_frame (ordf : ℕ → List String) (turns : List DiarTurn)
    (segs : List TranscriptSegment) :
    (add_speaker_diarization ordf turns segs).map segSig = segs.map segSig
    ∧ (add_speaker_diarization ordf turns segs).length = segs.length
    ∧ (add_speaker_diarization ordf turns segs).all (fun s => s.speaker.isSome) = true := by
  refine ⟨mergeGo_map ordf turns 0 segs, ?_, mergeGo_isSome ordf turns 0 segs⟩
  have h := congrArg List.length (mergeGo_map ordf turns 0 segs)
  simpa using h

theorem pyFMod_eq_fract (x y : ℚ) (hy : y ≠ 0) : pyFMod x y = y * Int.fract (x / y) := by
  rw [pyFMod_eq, Int.fract]
  field_simp

theorem pyFMod_nonneg (x y : ℚ) (hy : 0 < y) : 0 ≤ pyFMod x y := by
  rw [pyFMod_eq_fract x y hy.ne']
  exact mul_nonneg hy.le (Int.fract_nonneg _)

theorem pyFMod_lt (x y : ℚ) (hy : 0 < y) : pyFMod x y < y := by
  rw [pyFMod_eq_fract x y hy.ne']
  calc y * Int.fract (x / y) < y * 1 := mul_lt_mul_of_pos_left (Int.fract_lt_one _) hy
    _ = y := mul_one y

theorem pyFMod_one (q : ℚ) : pyFMod q 1 = q - (⌊q⌋ : ℚ) := by
  rw [pyFMod_eq]
  simp

theorem pyFormatD_natCast (w n : ℕ) : pyFormatD w ((n : ℕ) : ℤ) = zpad w (toString n) := by
  rw [pyFormatD, if_neg (not_lt.mpr (Int.natCast_nonneg n))]
  simp [Int.natAbs_ofNat]

/-- C8: for every non-negative number of seconds the SRT formatter yields
zero-padded `HH:MM:SS,mmm` where the three clock fields decompose the
truncated (floored) whole-second count and the millisecond field is the
fractional part times 1000, truncated toward zero — and 125.4567 s
formats as `00:02:05,456` (456.7 ms truncated, not rounded to 457). -/
theorem c8_srt_timestamp :
    (∀ q : ℚ, 0 ≤ q →
      ∃ hh mm ss ms : ℕ,
        format_timestamp_srt q
          = zpad 2 (toString hh) ++ ":" ++ zpad 2 (toString mm) ++ ":"
            ++ zpad 2 (toString ss) ++ "," ++ zpad 3 (toString ms)
        ∧ mm < 60 ∧ ss < 60 ∧ ms < 1000
        ∧ ((hh : ℤ) * 3600 + (mm : ℤ) * 60 + (ss : ℤ) = ⌊q⌋)
        ∧ ((ms : ℤ) = ⌊(q - (⌊q⌋ : ℚ)) * 1000⌋))
    ∧ format_timestamp_srt (1254567 / 10000) = "00:02:05,456" := by
  constructor
  · intro q hq
    have h3600 : (0 : ℚ) < 3600 := by norm_num
    have h60 : (0 : ℚ) < 60 := by norm_num
    have hfq : 0 ≤ ⌊q / 3600⌋ := Int.floor_nonneg.mpr (div_nonneg hq h3600.le)
    have hoursEq : pyInt (pyFloorDiv q 3600) = ⌊q / 3600⌋ := by
      rw [pyFloorDiv_eq, pyInt_of_nonneg (by exact_mod_cast hfq)]
      exact Int.floor_intCast _
    have hA0 : 0 ≤ pyFMod q 3600 := pyFMod_nonneg q 3600 h3600
    have hA1 : pyFMod q 3600 < 3600 := pyFMod_lt q 3600 h3600
    have hm0 : 0 ≤ ⌊pyFMod q 3600 / 60⌋ := Int.floor_nonneg.mpr (div_nonneg hA0 h60.le)
    have hmlt : ⌊pyFMod q 3600 / 60⌋ < 60 := by
      rw [Int.floor_lt]
      rw [show (((60 : ℤ) : ℚ)) = 60 by norm_num, div_lt_iff₀ h60]
      linarith
    have minutesEq : pyInt (pyFloorDiv (pyFMod q 3600) 60) = ⌊pyFMod q 3600 / 60⌋ := by
      rw [pyFloorDiv_eq, pyInt_of_nonneg (by exact_mod_cast hm0)]
      exact Int.floor_intCast _
    have hS0 : 0 ≤ pyFMod q 60 := pyFMod_nonneg q 60 h60
    have hS1 : pyFMod q 60 < 60 := pyFMod_lt q 60 h60
    have hs0 : 0 ≤ ⌊pyFMod q 60⌋ := Int.floor_nonneg.mpr hS0
    have hslt : ⌊pyFMod q 60⌋ < 60 := by
      rw [Int.floor_lt]
      push_cast
      linarith
    have secsEq : pyInt (pyFMod q 60) = ⌊pyFMod q 60⌋ := pyInt_of_nonneg hS0
    have hF0 : 0 ≤ q - (⌊q⌋ : ℚ) := by
      have := Int.floor_le q
      linarith
    have hF1 : q - (⌊q⌋ : ℚ) < 1 := by
      have := Int.lt_floor_add_one q
      linarith
    have hms0 : 0 ≤ ⌊(q - (⌊q⌋ : ℚ)) * 1000⌋ :=
      Int.floor_nonneg.mpr (mul_nonneg hF0 (by norm_num))
    have hmslt : ⌊(q - (⌊q⌋ : ℚ)) * 1000⌋ < 1000 := by
      rw [Int.floor_lt]
      push_cast
      nlinarith
    have msEq : pyInt (pyFMod q 1 * 1000) = ⌊(q - (⌊q⌋ : ℚ)) * 1000⌋ := by
      rw [pyFMod_one, pyInt_of_nonneg (mul_nonneg hF0 (by norm_num))]
    have hdecomp :
        ⌊q / 3600⌋ * 3600 + ⌊pyFMod q 3600 / 60⌋ * 60 + ⌊pyFMod q 60⌋ = ⌊q⌋ := by
      have e1 : q = pyFMod q 3600 + ((3600 * ⌊q / 3600⌋ : ℤ) : ℚ) := by
        rw [pyFMod_eq q 3600]
        push_cast
        ring
      have s1 : ⌊q⌋ = ⌊pyFMod q 3600⌋ + 3600 * ⌊q / 3600⌋ := by
        conv_lhs => rw [e1]
        exact Int.floor_add_int _ _
      have e2 : pyFMod q 3600
          = pyFMod (pyFMod q 3600) 60 + ((60 * ⌊pyFMod q 3600 / 60⌋ : ℤ) : ℚ) := by
        rw [pyFMod_eq (pyFMod q 3600) 60]
        push_cast
        ring
      have s2 : ⌊pyFMod q 3600⌋
          = ⌊pyFMod (pyFMod q 3600) 60⌋ + 60 * ⌊pyFMod q 3600 / 60⌋ := by
        conv_lhs => rw [e2]
        exact Int.floor_add_int _ _
      have s3 : pyFMod (pyFMod q 3600) 60 = pyFMod q 60 := by
        have hdd : pyFMod q 3600 / 60 = q / 60 - ((60 * ⌊q / 3600⌋ : ℤ) : ℚ) := by
          rw [pyFMod_eq q 3600]
          push_cast
          ring
        rw [pyFMod_eq (pyFMod q 3600) 60, pyFMod_eq q 60, hdd, Int.floor_sub_int]
        rw [pyFMod_eq q 3600]
        push_cast
        ring
      rw [s1, s2, s3]
      ring
    refine ⟨(⌊q / 3600⌋).toNat, (⌊pyFMod q 3600 / 60⌋).toNat, (⌊pyFMod q 60⌋).toNat,
      (⌊(q - (⌊q⌋ : ℚ)) * 1000⌋).toNat, ?_, by omega, by omega, by omega, ?_, ?_⟩
    · simp only [format_timestamp_srt]
      rw [hoursEq, minutesEq, secsEq, msEq]
      rw [show ⌊q / 3600⌋ = (((⌊q / 3600⌋).toNat : ℕ) : ℤ) from
          (Int.toNat_of_nonneg hfq).symm]
      rw [show ⌊pyFMod q 3600 / 60⌋ = (((⌊pyFMod q 3600 / 60⌋).toNat : ℕ) : ℤ) from
          (Int.toNat_of_nonneg hm0).symm]
      rw [show ⌊pyFMod q 60⌋ = (((⌊pyFMod q 60⌋).toNat : ℕ) : ℤ) from
          (Int.toNat_of_nonneg hs0).symm]
      rw [show ⌊(q - (⌊q⌋ : ℚ)) * 1000⌋ = (((⌊(q - (⌊q⌋ : ℚ)) * 1000⌋).toNat : ℕ) : ℤ)
          from (Int.toNat_of_nonneg hms0).symm]
      rw [pyFormatD_natCast, pyFormatD_natCast, pyFormatD_natCast, pyFormatD_natCast]
      simp only [Int.toNat_natCast]
    · rw [Int.toNat_of_nonneg hfq, Int.toNat_of_nonneg hm0, Int.toNat_of_nonneg hs0]
      exact hdecomp
    · rw [Int.toNat_of_nonneg hms0]
  · have hH : pyInt (pyFloorDiv (1254567 / 10000 : ℚ) 3600) = 0 := by
      rw [pyFloorDiv_eval _ _ 0 (by norm_num) (by norm_num) (by norm_num)]
      exact pyInt_eval _ 0 (by norm_num) (by norm_num) (by norm_num)
    have hm0 : pyFMod (1254567 / 10000 : ℚ) 3600 = 1254567 / 10000 := by
      rw [pyFMod_eval _ _ 0 (by norm_num) (by norm_num) (by norm_num)]
      norm_num
    have hM : pyInt (pyFloorDiv (pyFMod (1254567 / 10000 : ℚ) 3600) 60) = 2 := by
      rw [hm0, pyFloorDiv_eval _ _ 2 (by norm_num) (by norm_num) (by norm_num)]
      exact pyInt_eval _ 2 (by norm_num) (by norm_num) (by norm_num)
    have hS : pyInt (pyFMod (1254567 / 10000 : ℚ) 60) = 5 := by
      rw [pyFMod_eval _ _ 2 (by norm_num) (by norm_num) (by norm_num)]
      exact pyInt_eval _ 5 (by norm_num) (by norm_num) (by norm_num)
    have hMs : pyInt (pyFMod (1254567 / 10000 : ℚ) 1 * 1000) = 456 := by
      rw [pyFMod_eval _ _ 125 (by norm_num) (by norm_num) (by norm_num)]
      exact pyInt_eval _ 456 (by norm_num) (by norm_num) (by norm_num)
    simp only [format_timestamp_srt]
    rw [hH, hM, hS, hMs]
    rfl

/-- C8 witness: the formatter theorem applied at 125.4567 seconds. -/
theorem c8_witness :
    (0 : ℚ) ≤ 1254567 / 10000
    ∧ ∃ hh mm ss ms : ℕ,
        format_timestamp_srt (1254567 / 10000)
          = zpad 2 (toString hh) ++ ":" ++ zpad 2 (toString mm) ++ ":"
            ++ zpad 2 (toString ss) ++ "," ++ zpad 3 (toString ms)
        ∧ mm < 60 ∧ ss < 60 ∧ ms < 1000
        ∧ ((hh : ℤ) * 3600 + (mm : ℤ) * 60 + (ss : ℤ) = ⌊(1254567 / 10000 : ℚ)⌋)
        ∧ ((ms : ℤ)
            = ⌊((1254567 / 10000 : ℚ) - (⌊(1254567 / 10000 : ℚ)⌋ : ℚ)) * 1000⌋) :=
  ⟨by norm_num, c8_srt_timestamp.1 (1254567 / 10000) (by norm_num)⟩
